import Mathlib

/-!
Verification development for the lawnmower-backend HTTP service.

The service (src/server.mjs) has two endpoints:
* `GET /api/products` — translates optional query-string filters into a
  parameterized SQL query over the read-only `Lawnmowers` relation and
  returns the matching rows as JSON;
* `POST /api/submit-debug-log` — validates a batch of log entries and
  persists it transactionally to a PostgreSQL store.

We shallowly embed both handlers.  JavaScript strings are modelled as
lists of character codes (`Str := List Nat`), JavaScript numbers as
rationals (`ℚ`; float rounding, `Infinity` and hex literals are outside
the model), query parameters as `Option Str` (absent = `none`), and the
SQL `WHERE` clause built by string concatenation in the source as a
structured conjunction (`BuiltQuery` / `rowMatches`).  The database is a
list of `Product` rows; `ORDER BY` is modelled by `List.insertionSort`.
-/

/-- JavaScript strings, as lists of character codes. -/
abbrev Str : Type := List Nat

/-- ASCII lower-casing of one character code, the model of SQL `lower()`
and JS `toLowerCase()` on the ASCII range used by the data. -/
def lowerChar (c : Nat) : Nat := if 65 ≤ c ∧ c ≤ 90 then c + 32 else c

/-- Lower-casing of a string. -/
def lowerStr (s : Str) : Str := s.map lowerChar

/-- Whitespace character codes (the `\s` class of the tokenizing regex,
restricted to the ASCII range). -/
def isWsCode (c : Nat) : Bool := c == 32 || c == 9 || c == 10 || c == 13 || c == 11 || c == 12

/-- Decimal digit test. -/
def isDigitCode (c : Nat) : Bool := 48 ≤ c && c ≤ 57

/-- Numeric value of a digit string (most significant first). -/
def digitsToNat (l : List Nat) : Nat := l.foldl (fun a c => a * 10 + (c - 48)) 0

/-- Model of JS `parseFloat`: skip leading whitespace, optional sign,
longest prefix `digits [. digits] [e/E [sign] digits]`; `none` when no
digit is consumed (JS `NaN`).  Values are exact rationals (binary float
rounding, `Infinity` and hex forms are outside the model); the value is
assembled from integer arithmetic as
`±(ipdigits·10^|fp| + fpdigits) · 10^(e-|fp|)`. -/
def parseFloat (s : Str) : Option ℚ :=
  let s1 := s.dropWhile isWsCode
  let signAndRest : Bool × List Nat :=
    match s1 with
    | 43 :: r => (false, r)
    | 45 :: r => (true, r)
    | _ => (false, s1)
  let s2 := signAndRest.2
  let ip := s2.takeWhile isDigitCode
  let r1 := s2.dropWhile isDigitCode
  let fracAndRest : List Nat × List Nat :=
    match r1 with
    | 46 :: r => (r.takeWhile isDigitCode, r.dropWhile isDigitCode)
    | _ => ([], r1)
  let fp := fracAndRest.1
  let r2 := fracAndRest.2
  if ip.isEmpty && fp.isEmpty then none
  else
    let e : ℤ :=
      match r2 with
      | c :: r3 =>
        if c == 101 || c == 69 then
          let esAndRest : Bool × List Nat :=
            match r3 with
            | 43 :: rr => (false, rr)
            | 45 :: rr => (true, rr)
            | _ => (false, r3)
          let ed := esAndRest.2.takeWhile isDigitCode
          if ed.isEmpty then 0
          else if esAndRest.1 then -(digitsToNat ed : ℤ) else (digitsToNat ed : ℤ)
        else 0
      | [] => 0
    let mantNum : Nat := digitsToNat ip * 10 ^ fp.length + digitsToNat fp
    let num : ℤ := if signAndRest.1 then -(mantNum : ℤ) else (mantNum : ℤ)
    let scale : ℤ := e - (fp.length : ℤ)
    some (if 0 ≤ scale then mkRat (num * (10 : ℤ) ^ scale.toNat) 1
          else mkRat num ((10 : Nat) ^ (-scale).toNat))

/-- Accumulator-passing worker for `tokenize`; `acc` holds the current
token reversed. -/
def tokenizeGo : List Nat → List Nat → List Str
  | [], acc => if acc.isEmpty then [] else [acc.reverse]
  | c :: rest, acc =>
    if isWsCode c then
      if acc.isEmpty then tokenizeGo rest [] else acc.reverse :: tokenizeGo rest []
    else tokenizeGo rest (c :: acc)

/-- Model of `keywords.split(/\s+/).filter(t => t.length > 0)`:
maximal whitespace-free runs of `s`. -/
def tokenize (s : Str) : List Str := tokenizeGo s []

/-- Model of SQL `REPLACE(field, ' ', '')`. -/
def stripSpaces (s : Str) : Str := s.filter (fun c => c != 32)

-- String constants appearing in the source (ASCII codes).
def strTrue : Str := [116, 114, 117, 101]
def strFalse : Str := [102, 97, 108, 115, 101]
def strPrice : Str := [112, 114, 105, 99, 101]
def strName : Str := [110, 97, 109, 101]
def strDesc : Str := [100, 101, 115, 99]
def errCuttingWidth : Str := [73, 110, 118, 97, 108, 105, 100, 32, 118, 97, 108, 117, 101, 32, 102, 111, 114, 32, 99, 117, 116, 116, 105, 110, 103, 87, 105, 100, 116, 104, 67, 109, 46, 32, 77, 117, 115, 116, 32, 98, 101, 32, 97, 32, 110, 117, 109, 98, 101, 114, 46]
def errRearRoller : Str := [73, 110, 118, 97, 108, 105, 100, 32, 118, 97, 108, 117, 101, 32, 102, 111, 114, 32, 104, 97, 115, 82, 101, 97, 114, 82, 111, 108, 108, 101, 114, 46, 32, 77, 117, 115, 116, 32, 98, 101, 32, 34, 116, 114, 117, 101, 34, 32, 111, 114, 32, 34, 102, 97, 108, 115, 101, 34, 46]
def errMinPrice : Str := [73, 110, 118, 97, 108, 105, 100, 32, 118, 97, 108, 117, 101, 32, 102, 111, 114, 32, 109, 105, 110, 80, 114, 105, 99, 101, 46, 32, 77, 117, 115, 116, 32, 98, 101, 32, 97, 32, 110, 117, 109, 98, 101, 114, 46]
def errMaxPrice : Str := [73, 110, 118, 97, 108, 105, 100, 32, 118, 97, 108, 117, 101, 32, 102, 111, 114, 32, 109, 97, 120, 80, 114, 105, 99, 101, 46, 32, 77, 117, 115, 116, 32, 98, 101, 32, 97, 32, 110, 117, 109, 98, 101, 114, 46]
def errSortByPrefix : Str := [73, 110, 118, 97, 108, 105, 100, 32, 115, 111, 114, 116, 66, 121, 32, 112, 97, 114, 97, 109, 101, 116, 101, 114, 58, 32]

/-- One row of the read-only `Lawnmowers` relation, with the column set
selected by the handler's `SELECT` list.  Numeric columns are rationals,
text columns are `Str`; `has_rear_roller` is stored as text in the
current schema revision. -/
structure Product where
  id : Str
  name : Str
  category : Str
  price : ℚ
  imageUrl : Str
  productUrl : Str
  description : Str
  brand : Str
  powerSource : Str
  driveType : Str
  cuttingWidthCm : ℚ
  hasRearRoller : Str
  configuration : Str
  batterySystem : Str
  idealFor : Str
  bestFeature : Str
deriving DecidableEq

/-- The query-string parameters recognized by `GET /api/products`.
`none` models an absent parameter. -/
structure Request where
  brand : Option Str
  powerSource : Option Str
  driveType : Option Str
  hasRearRoller : Option Str
  keywords : Option Str
  category : Option Str
  productId : Option Str
  cuttingWidthCm : Option Str
  sortBy : Option Str
  order : Option Str
  minPrice : Option Str
  maxPrice : Option Str
deriving DecidableEq

/-- The request with every parameter absent. -/
def emptyRequest : Request := ⟨none, none, none, none, none, none, none, none, none, none, none, none⟩

/-- JS truthiness of an optional string parameter: present and non-empty.
(`if (param)` in the source.) -/
def normStr : Option Str → Option Str
  | none => none
  | some s => if s.isEmpty then none else some s

/-- Sort keys accepted by the `sortBy` parameter. -/
inductive SortKey where
  | byPrice
  | byName
deriving DecidableEq

/-- The structured content of the SQL `WHERE`/`ORDER BY` clause built by
the handler: one conjunct per present, valid parameter. -/
structure BuiltQuery where
  tokens : List Str
  category : Option Str
  brand : Option Str
  powerSource : Option Str
  driveType : Option Str
  cuttingWidth : Option ℚ
  rearRoller : Option Bool
  minPrice : Option ℚ
  maxPrice : Option ℚ
  sortKey : Option SortKey
  sortDesc : Bool
deriving DecidableEq

/-- Execution plan of one catalog request: the `productId` short-circuit
branch (`db.get`), or a filtered multi-row query (`db.all`). -/
inductive Plan where
  | lookup (pid : Str)
  | search (q : BuiltQuery)
deriving DecidableEq

/-- Numeric parameter handling: absent/empty → no filter; present and
parseable → filter value; present and `NaN` → the 400 error message. -/
def numParam (v : Option Str) (msg : Str) : Except Str (Option ℚ) :=
  match normStr v with
  | none => Except.ok none
  | some s =>
    match parseFloat s with
    | some q => Except.ok (some q)
    | none => Except.error msg

/-- The `hasRearRoller` handling: literal `"true"`/`"false"` → filter;
other non-empty values → 400; absent/empty → no filter. -/
def rearRollerParam (v : Option Str) : Except Str (Option Bool) :=
  match v with
  | none => Except.ok none
  | some s =>
    if s = strTrue then Except.ok (some true)
    else if s = strFalse then Except.ok (some false)
    else if s.isEmpty then Except.ok none
    else Except.error errRearRoller

/-- The `sortBy` handling: case-insensitive `price`/`name` → key; any other
non-empty value → 400 with the parameter echoed; absent/empty → none. -/
def sortByParam (v : Option Str) : Except Str (Option SortKey) :=
  match normStr v with
  | none => Except.ok none
  | some s =>
    if lowerStr s = strPrice then Except.ok (some SortKey.byPrice)
    else if lowerStr s = strName then Except.ok (some SortKey.byName)
    else Except.error (errSortByPrefix ++ s)

/-- Model of `(order && order.toLowerCase() === 'desc') ? 'DESC' : 'ASC'`. -/
def descOf (v : Option Str) : Bool :=
  match normStr v with
  | none => false
  | some s => lowerStr s == strDesc

/-- Keyword tokens of the request: lower-cased, split on whitespace,
empty tokens dropped; `[]` when the parameter is absent or empty. -/
def keywordTokens (v : Option Str) : List Str :=
  match normStr v with
  | none => []
  | some kw => tokenize (lowerStr kw)

/-- The validation / query-building phase of `GET /api/products`,
mirroring the source's control flow: the `productId` short circuit, then
keyword processing and the exact-match filters, with early `return
res.status(400)` on the first invalid numeric, boolean or sort
parameter (in source order). -/
def buildPlan (req : Request) : Except Str Plan :=
  match normStr req.productId with
  | some pid => Except.ok (Plan.lookup pid)
  | none => do
    let cw ← numParam req.cuttingWidthCm errCuttingWidth
    let rr ← rearRollerParam req.hasRearRoller
    let mn ← numParam req.minPrice errMinPrice
    let mx ← numParam req.maxPrice errMaxPrice
    let sk ← sortByParam req.sortBy
    Except.ok (Plan.search
      ⟨keywordTokens req.keywords, normStr req.category, normStr req.brand,
       normStr req.powerSource, normStr req.driveType, cw, rr, mn, mx, sk,
       descOf req.order⟩)

/-- Model of `lower(field) LIKE '%token%'` for an (already lower-cased) token. -/
def fieldLike (tok field : Str) : Bool := decide (tok <:+: lowerStr field)

/-- Keyword clause of the current `src/server.mjs` revision
(lines 95–111): OR over the four text fields of (AND over all tokens in
that field); vacuously true when no tokens. -/
def kwMatch1 (tokens : List Str) (p : Product) : Bool :=
  tokens.isEmpty ||
    [p.name, p.description, p.idealFor, p.bestFeature].any
      (fun f => tokens.all (fun t => fieldLike t f))

/-- Keyword clause of the latest revision (lines 341–369): AND over
tokens of (OR over the four fields), where `name` and `description` are
compared after `REPLACE(field, ' ', '')`. -/
def kwMatch2 (tokens : List Str) (p : Product) : Bool :=
  tokens.all (fun t =>
    fieldLike t (stripSpaces p.name) ||
    fieldLike t (stripSpaces p.description) ||
    fieldLike t p.idealFor ||
    fieldLike t p.bestFeature)

/-- Model of `lower(a) = lower(b)`. -/
def strEqCI (a b : Str) : Bool := lowerStr a == lowerStr b

/-- The non-keyword conjuncts of the `WHERE` clause. -/
def restMatch (q : BuiltQuery) (p : Product) : Bool :=
  (match q.category with | none => true | some c => strEqCI p.category c) &&
  (match q.brand with | none => true | some b => strEqCI p.brand b) &&
  (match q.powerSource with | none => true | some s => strEqCI p.powerSource s) &&
  (match q.driveType with | none => true | some d => strEqCI p.driveType d) &&
  (match q.cuttingWidth with | none => true | some w => decide (p.cuttingWidthCm = w)) &&
  (match q.rearRoller with
   | none => true
   | some true => lowerStr p.hasRearRoller == strTrue
   | some false => lowerStr p.hasRearRoller == strFalse) &&
  (match q.minPrice with | none => true | some m => decide (m ≤ p.price)) &&
  (match q.maxPrice with | none => true | some m => decide (p.price ≤ m))

/-- Full `WHERE` clause of the current revision. -/
def rowMatches (q : BuiltQuery) (p : Product) : Bool :=
  kwMatch1 q.tokens p && restMatch q p

/-- Full `WHERE` clause of the latest-revision keyword variant. -/
def rowMatchesV2 (q : BuiltQuery) (p : Product) : Bool :=
  kwMatch2 q.tokens p && restMatch q p

/-- The `ORDER BY price ASC` comparison. -/
def priceLe (a b : Product) : Prop := a.price ≤ b.price

/-- The `ORDER BY price DESC` comparison. -/
def priceGe (a b : Product) : Prop := b.price ≤ a.price

/-- The `ORDER BY name ASC` comparison (lexicographic on character codes). -/
def nameLe (a b : Product) : Prop := a.name ≤ b.name

/-- The `ORDER BY name DESC` comparison. -/
def nameGe (a b : Product) : Prop := b.name ≤ a.name

instance : DecidableRel priceLe := fun a b => inferInstanceAs (Decidable (a.price ≤ b.price))
instance : DecidableRel priceGe := fun a b => inferInstanceAs (Decidable (b.price ≤ a.price))
instance : DecidableRel nameLe := fun a b => inferInstanceAs (Decidable (a.name ≤ b.name))
instance : DecidableRel nameGe := fun a b => inferInstanceAs (Decidable (b.name ≤ a.name))

instance : IsTotal Product priceLe := ⟨fun a b => le_total a.price b.price⟩
instance : IsTotal Product priceGe := ⟨fun a b => le_total b.price a.price⟩
instance : IsTotal Product nameLe := ⟨fun a b => le_total a.name b.name⟩
instance : IsTotal Product nameGe := ⟨fun a b => le_total b.name a.name⟩
instance : IsTrans Product priceLe := ⟨fun _ _ _ h1 h2 => le_trans h1 h2⟩
instance : IsTrans Product priceGe := ⟨fun _ _ _ h1 h2 => le_trans h2 h1⟩
instance : IsTrans Product nameLe := ⟨fun _ _ _ h1 h2 => le_trans h1 h2⟩
instance : IsTrans Product nameGe := ⟨fun _ _ _ h1 h2 => le_trans h2 h1⟩

/-- The comparison realizing `ORDER BY <key> <direction>`. -/
def sortRel (k : SortKey) (d : Bool) : Product → Product → Prop :=
  match k, d with
  | SortKey.byPrice, false => priceLe
  | SortKey.byPrice, true => priceGe
  | SortKey.byName, false => nameLe
  | SortKey.byName, true => nameGe

instance instDecSortRel (k : SortKey) (d : Bool) : DecidableRel (sortRel k d) :=
  match k, d with
  | SortKey.byPrice, false => inferInstanceAs (DecidableRel priceLe)
  | SortKey.byPrice, true => inferInstanceAs (DecidableRel priceGe)
  | SortKey.byName, false => inferInstanceAs (DecidableRel nameLe)
  | SortKey.byName, true => inferInstanceAs (DecidableRel nameGe)

instance instTotalSortRel (k : SortKey) (d : Bool) : IsTotal Product (sortRel k d) :=
  match k, d with
  | SortKey.byPrice, false => inferInstanceAs (IsTotal Product priceLe)
  | SortKey.byPrice, true => inferInstanceAs (IsTotal Product priceGe)
  | SortKey.byName, false => inferInstanceAs (IsTotal Product nameLe)
  | SortKey.byName, true => inferInstanceAs (IsTotal Product nameGe)

instance instTransSortRel (k : SortKey) (d : Bool) : IsTrans Product (sortRel k d) :=
  match k, d with
  | SortKey.byPrice, false => inferInstanceAs (IsTrans Product priceLe)
  | SortKey.byPrice, true => inferInstanceAs (IsTrans Product priceGe)
  | SortKey.byName, false => inferInstanceAs (IsTrans Product nameLe)
  | SortKey.byName, true => inferInstanceAs (IsTrans Product nameGe)

/-- The `ORDER BY` application: no `sortBy` leaves natural storage order. -/
def sortRows (k : Option SortKey) (d : Bool) (rows : List Product) : List Product :=
  match k with
  | none => rows
  | some key => List.insertionSort (sortRel key d) rows

/-- Responses of `GET /api/products`: `200` with a JSON array, `400`
with an error message, or `404` (`Product not found`).  Datastore
failures (`500`) are not modelled — the embedded store never fails. -/
inductive ProductsResponse where
  | ok (rows : List Product)
  | badRequest (msg : Str)
  | notFound
deriving DecidableEq

/-- The `GET /api/products` handler of the current `src/server.mjs`
revision over a pure store `db` (rows in natural storage order):
`db.get` returns the first row matching `id = ?`; `db.all` returns the
rows satisfying the built `WHERE` clause in `ORDER BY` order. -/
def getProducts (db : List Product) (req : Request) : ProductsResponse :=
  match buildPlan req with
  | Except.error msg => ProductsResponse.badRequest msg
  | Except.ok (Plan.lookup pid) =>
    match db.find? (fun p => p.id == pid) with
    | some p => ProductsResponse.ok [p]
    | none => ProductsResponse.notFound
  | Except.ok (Plan.search q) =>
    ProductsResponse.ok (sortRows q.sortKey q.sortDesc (db.filter (rowMatches q)))

/-- The same handler with the latest-revision keyword clause
(`REPLACE`-based compound-word matching, lines 341–369). -/
def getProductsV2 (db : List Product) (req : Request) : ProductsResponse :=
  match buildPlan req with
  | Except.error msg => ProductsResponse.badRequest msg
  | Except.ok (Plan.lookup pid) =>
    match db.find? (fun p => p.id == pid) with
    | some p => ProductsResponse.ok [p]
    | none => ProductsResponse.notFound
  | Except.ok (Plan.search q) =>
    ProductsResponse.ok (sortRows q.sortKey q.sortDesc (db.filter (rowMatchesV2 q)))

/-! ## The log batch writer (`POST /api/submit-debug-log`) -/

/-- JavaScript values appearing in the JSON request body. -/
inductive JVal where
  | vstr (s : Str)
  | vnum (n : ℤ)
  | vbool (b : Bool)
  | vnull
  | vundef
  | varr (elems : List JVal)
  | vobj (fields : List (Str × JVal))

/-- Model of `typeof v === 'string'`. -/
def jsIsString : JVal → Bool
  | JVal.vstr _ => true
  | _ => false

/-- Model of `typeof v === 'object'` (true for objects, arrays and `null`). -/
def jsIsObject : JVal → Bool
  | JVal.vobj _ => true
  | JVal.varr _ => true
  | JVal.vnull => true
  | _ => false

/-- JS truthiness. -/
def jsTruthy : JVal → Bool
  | JVal.vstr s => !s.isEmpty
  | JVal.vnum n => n != 0
  | JVal.vbool b => b
  | JVal.vnull => false
  | JVal.vundef => false
  | JVal.varr _ => true
  | JVal.vobj _ => true

def keyMessage : Str := [109, 101, 115, 115, 97, 103, 101]
def keyLevel : Str := [108, 101, 118, 101, 108]
def strNull : Str := [110, 117, 108, 108]
def errLogsArray : Str := [73, 110, 118, 97, 108, 105, 100, 32, 111, 114, 32, 101, 109, 112, 116, 121, 32, 108, 111, 103, 115, 32, 97, 114, 114, 97, 121, 32, 112, 114, 111, 118, 105, 100, 101, 100, 46]
def errStoreLogs : Str := [70, 97, 105, 108, 101, 100, 32, 116, 111, 32, 115, 116, 111, 114, 101, 32, 108, 111, 103, 115, 32, 105, 110, 32, 100, 97, 116, 97, 98, 97, 115, 101, 46]
def errLogConn : Str := [68, 97, 116, 97, 98, 97, 115, 101, 32, 99, 111, 110, 110, 101, 99, 116, 105, 111, 110, 32, 101, 114, 114, 111, 114, 32, 102, 111, 114, 32, 108, 111, 103, 103, 105, 110, 103, 46]

/-- JS property access `v[k]`: a `TypeError` (modelled as `Except.error`)
on `null`/`undefined`, the field value (or `undefined`) on objects, and
`undefined` on every other primitive. -/
def getField : JVal → Str → Except Unit JVal
  | JVal.vnull, _ => Except.error ()
  | JVal.vundef, _ => Except.error ()
  | JVal.vobj fs, k => Except.ok (((fs.find? (fun kv => kv.1 == k)).map Prod.snd).getD JVal.vundef)
  | _, _ => Except.ok JVal.vundef

/-- JSON string escaping (quote and backslash; the control-character
escapes are not exercised by the data). -/
def jsonEscape (s : Str) : Str :=
  s.flatMap (fun c => if c == 34 then [92, 34] else if c == 92 then [92, 92] else [c])

/-- Decimal rendering of a natural number. -/
def natToStr (n : Nat) : Str :=
  if h : n < 10 then [48 + n]
  else natToStr (n / 10) ++ [48 + n % 10]
decreasing_by
  exact Nat.div_lt_self (by omega) (by omega)

/-- Decimal rendering of an integer. -/
def intToStr : ℤ → Str
  | Int.ofNat n => natToStr n
  | Int.negSucc m => 45 :: natToStr (m + 1)

mutual

/-- Model of `JSON.stringify` on defined values (`undefined` is handled
by `stringifyOpt`; inside arrays JSON renders it as `null`). -/
def stringifyVal : JVal → Str
  | JVal.vstr s => 34 :: (jsonEscape s ++ [34])
  | JVal.vnum n => intToStr n
  | JVal.vbool true => strTrue
  | JVal.vbool false => strFalse
  | JVal.vnull => strNull
  | JVal.vundef => strNull
  | JVal.varr es => 91 :: (List.intercalate [44] (stringifyArr es) ++ [93])
  | JVal.vobj fs => 123 :: (List.intercalate [44] (stringifyObj fs) ++ [125])

/-- Serializations of array elements. -/
def stringifyArr : List JVal → List Str
  | [] => []
  | v :: rest => stringifyVal v :: stringifyArr rest

/-- Serializations of object fields (`undefined`-valued fields are
skipped, as in JSON.stringify). -/
def stringifyObj : List (Str × JVal) → List Str
  | [] => []
  | (k, v) :: rest =>
    match v with
    | JVal.vundef => stringifyObj rest
    | v => (34 :: (jsonEscape k ++ [34, 58]) ++ stringifyVal v) :: stringifyObj rest

end

/-- Full `JSON.stringify`: `undefined` (and only `undefined`, among
the modelled values) serializes to `undefined`, i.e. `none`. -/
def stringifyOpt : JVal → Option Str
  | JVal.vundef => none
  | v => some (stringifyVal v)

/-- One row of the `debug_logs` insertion:
`(session_id, user_id, timestamp, log_message, log_level)`.
`message = none` models an `undefined` parameter, which the driver
sends as SQL `NULL`. -/
structure LogRow where
  sessionId : JVal
  userId : JVal
  timestamp : Str
  message : Option Str
  level : JVal

/-- The per-entry extraction of the loop body (source lines 212–224):
`logMessage`, `logLevel`, `finalLogMessage`.  `Except.error` models a
thrown `TypeError` (property access on `null`/`undefined` entries). -/
def mkRow (e sid uid : JVal) (ts : Str) : Except Unit LogRow := do
  let logMessage ← if jsIsString e then pure e else getField e keyMessage
  let logLevel ←
    if jsIsObject e then do
      let lv ← getField e keyLevel
      pure (if jsTruthy lv then lv else JVal.vnull)
    else pure JVal.vnull
  let finalMsg : Option Str :=
    match logMessage with
    | JVal.vstr s => some s
    | m => stringifyOpt m
  pure ⟨sid, uid, ts, finalMsg, logLevel⟩

/-- Observable client actions of the log handler, in order. -/
inductive LogEv where
  | connect (ok : Bool)
  | beginTx (ok : Bool)
  | insert (row : LogRow) (ok : Bool)
  | commit (ok : Bool)
  | rollback (ok : Bool)
  | release

/-- Responses of `POST /api/submit-debug-log`. -/
inductive LogResult where
  | success
  | badRequest (msg : Str)
  | serverError (msg : Str)

/-- The insertion loop.  `qIdx` is the index of the next query issued on
the client (the oracle `qOk` says which queries succeed), `k` the index
of the current entry (used for its write-time timestamp).  Returns the
insert events, the next query index, and whether the loop completed. -/
def insertLoop (sid uid : JVal) (now : Nat → Str) (qOk : Nat → Bool) :
    List JVal → Nat → Nat → List LogEv × Nat × Bool
  | [], qIdx, _ => ([], qIdx, true)
  | e :: rest, qIdx, k =>
    match mkRow e sid uid (now k) with
    | Except.error _ => ([], qIdx, false)
    | Except.ok row =>
      if qOk qIdx then
        let r := insertLoop sid uid now qOk rest (qIdx + 1) (k + 1)
        (LogEv.insert row true :: r.1, r.2)
      else ([LogEv.insert row false], qIdx + 1, false)

/-- Model of `Array.isArray` plus element extraction. -/
def arrayElems : JVal → Option (List JVal)
  | JVal.varr es => some es
  | _ => none

/-- The `POST /api/submit-debug-log` handler (source lines 200–239).
`connectOk` models `logDbPool.connect()`, `qOk n` the success of the
`n`-th `client.query` call (`BEGIN` is query 0), `now k` the `new
Date().toISOString()` value of entry `k`.  The event list records the
client's actions; exceptions follow the source's try/catch/finally:
a failure inside the transaction issues `ROLLBACK` then answers 500;
a failing `ROLLBACK` re-throws past `finally { client.release() }` into
the outer catch, which answers with the connection-error message. -/
def submitDebugLog (logs sid uid : JVal) (connectOk : Bool) (now : Nat → Str)
    (qOk : Nat → Bool) : LogResult × List LogEv :=
  match arrayElems logs with
  | none => (LogResult.badRequest errLogsArray, [])
  | some entries =>
    if entries.isEmpty then (LogResult.badRequest errLogsArray, [])
    else if !connectOk then (LogResult.serverError errLogConn, [LogEv.connect false])
    else
      if qOk 0 then
        let r := insertLoop sid uid now qOk entries 1 0
        let evs := [LogEv.connect true, LogEv.beginTx true] ++ r.1
        if r.2.2 then
          if qOk r.2.1 then
            (LogResult.success, evs ++ [LogEv.commit true, LogEv.release])
          else if qOk (r.2.1 + 1) then
            (LogResult.serverError errStoreLogs,
              evs ++ [LogEv.commit false, LogEv.rollback true, LogEv.release])
          else
            (LogResult.serverError errLogConn,
              evs ++ [LogEv.commit false, LogEv.rollback false, LogEv.release])
        else
          if qOk r.2.1 then
            (LogResult.serverError errStoreLogs, evs ++ [LogEv.rollback true, LogEv.release])
          else
            (LogResult.serverError errLogConn, evs ++ [LogEv.rollback false, LogEv.release])
      else
        if qOk 1 then
          (LogResult.serverError errStoreLogs,
            [LogEv.connect true, LogEv.beginTx false, LogEv.rollback true, LogEv.release])
        else
          (LogResult.serverError errLogConn,
            [LogEv.connect true, LogEv.beginTx false, LogEv.rollback false, LogEv.release])

/-- Transactional semantics of a trace: rows become durable only at a
successful `COMMIT`; a successful `ROLLBACK` (or the end of the trace
without a commit) discards the pending rows. -/
def committedRows : List LogEv → List LogRow → List LogRow
  | [], _ => []
  | LogEv.insert r true :: rest, pending => committedRows rest (pending ++ [r])
  | LogEv.commit true :: rest, pending => pending ++ committedRows rest []
  | LogEv.rollback true :: rest, _ => committedRows rest []
  | _ :: rest, pending => committedRows rest pending

/-- The rows durably visible after a trace. -/
def visibleRows (evs : List LogEv) : List LogRow := committedRows evs []

def isCommitEv : LogEv → Bool
  | LogEv.commit _ => true
  | _ => false

def isRollbackEv : LogEv → Bool
  | LogEv.rollback _ => true
  | _ => false

def isReleaseEv : LogEv → Bool
  | LogEv.release => true
  | _ => false

def isInsertEv : LogEv → Bool
  | LogEv.insert _ _ => true
  | _ => false

/-- The rows a batch should persist: one per entry, in order, with the
entry-indexed write-time timestamp. -/
def rowsOfFrom (sid uid : JVal) (now : Nat → Str) (k0 : Nat) (entries : List JVal) : List LogRow :=
  (entries.enumFrom k0).filterMap (fun p => (mkRow p.2 sid uid (now p.1)).toOption)

def rowsOf (sid uid : JVal) (now : Nat → Str) (entries : List JVal) : List LogRow :=
  rowsOfFrom sid uid now 0 entries

/-! ## Concrete fixtures used by the witnesses -/

/-- A sample row: name `Mow`, category `A`, brand `B`, price 100,
cutting width 30, rear-roller flag stored as `TRUE`. -/
def prodA : Product :=
  ⟨[49], [77, 111, 119], [65], 100, [], [], [], [66], [80], [68], 30,
   [84, 82, 85, 69], [], [], [], []⟩

/-- A row with price 1. -/
def prodCheap : Product :=
  ⟨[49], [97], [65], 1, [], [], [], [], [], [], 30, [], [], [], [], []⟩

/-- A row with price 2. -/
def prodDear : Product :=
  ⟨[50], [98], [65], 2, [], [], [], [], [], [], 30, [], [], [], [], []⟩

/-- A row whose name `Lawn Mower` contains a space, for the
compound-word keyword match: description `big`, ideal-for `garden`. -/
def prodKW : Product :=
  ⟨[51], [76, 97, 119, 110, 32, 77, 111, 119, 101, 114], [65], 5, [], [],
   [98, 105, 103], [], [], [], 30, [], [], [], [103, 97, 114, 100, 101, 110], []⟩

def dbOne : List Product := [prodA]
def dbTwo : List Product := [prodCheap, prodDear]
def dbKW : List Product := [prodKW]

/-- Request `category=a&minPrice=50`. -/
def reqC1 : Request := { emptyRequest with category := some [97], minPrice := some [53, 48] }

/-- Request `productId=1&category=bogus`. -/
def reqC3 : Request :=
  { emptyRequest with productId := some [49], category := some [98, 111, 103, 117, 115] }

/-- Request `keywords=lawnmower garden`. -/
def reqC4 : Request :=
  { emptyRequest with
      keywords := some [108, 97, 119, 110, 109, 111, 119, 101, 114, 32,
                        103, 97, 114, 100, 101, 110] }

/-- Request `cuttingWidthCm=abc`. -/
def reqC5 : Request := { emptyRequest with cuttingWidthCm := some [97, 98, 99] }

/-- Request `hasRearRoller=true`. -/
def reqC6 : Request := { emptyRequest with hasRearRoller := some strTrue }

/-- Request `hasRearRoller=yes`. -/
def reqC6bad : Request := { emptyRequest with hasRearRoller := some [121, 101, 115] }

/-- Request `sortBy=price&order=DESC` (upper-case order value). -/
def reqC7x : Request :=
  { emptyRequest with sortBy := some strPrice, order := some [68, 69, 83, 67] }

/-- Request `sortBy=price&order=desc`. -/
def reqC7w : Request := { emptyRequest with sortBy := some strPrice, order := some strDesc }

/-- Request `productId=1&cuttingWidthCm=abc&hasRearRoller=yes&sortBy=bogus`. -/
def reqC10 : Request :=
  { emptyRequest with
      productId := some [49], cuttingWidthCm := some [97, 98, 99],
      hasRearRoller := some [121, 101, 115],
      sortBy := some [98, 111, 103, 117, 115] }

/-- The keyword condition of claim C4, following the spec's words: the
token appears as a case-insensitive substring in one of the four text
fields, or additionally matches the name or description field after
spaces are stripped from the field content.  (Spec-side definition, to
be compared with the code-side `kwMatch2`.) -/
def specTokenMatch (t : Str) (p : Product) : Prop :=
  (t <:+: lowerStr p.name ∨ t <:+: lowerStr p.description ∨
   t <:+: lowerStr p.idealFor ∨ t <:+: lowerStr p.bestFeature) ∨
  (t <:+: lowerStr (stripSpaces p.name) ∨ t <:+: lowerStr (stripSpaces p.description))

/-- The keywords value of `reqC4` (`lawnmower garden`). -/
def kwC4 : Str :=
  [108, 97, 119, 110, 109, 111, 119, 101, 114, 32, 103, 97, 114, 100, 101, 110]

/-- The query built for `reqC4`: two keyword tokens, no other filter. -/
def qC4 : BuiltQuery :=
  ⟨[[108, 97, 119, 110, 109, 111, 119, 101, 114], [103, 97, 114, 100, 101, 110]],
   none, none, none, none, none, none, none, none, none, false⟩

/-- Log batch `["hello", {message: "oops", level: "ERROR"}]`. -/
def logsC2 : JVal :=
  JVal.varr [JVal.vstr [104, 101, 108, 108, 111],
    JVal.vobj [(keyMessage, JVal.vstr [111, 111, 112, 115]),
               (keyLevel, JVal.vstr [69, 82, 82, 79, 82])]]

/-- Log batch `[{level: "INFO"}]` (no message field). -/
def logsC8 : JVal :=
  JVal.varr [JVal.vobj [(keyLevel, JVal.vstr [73, 78, 70, 79])]]

/-- Session id `"s"`. -/
def sidS : JVal := JVal.vstr [115]

/-- User id `"u"`. -/
def uidS : JVal := JVal.vstr [117]

/-- A constant clock: every entry gets timestamp `"t"`. -/
def tsConst : Nat → Str := fun _ => [116]

/-- An oracle under which every query succeeds. -/
def allOk : Nat → Bool := fun _ => true

/-- An oracle under which the first insert (query 1) fails and
everything else succeeds. -/
def failFirstInsert : Nat → Bool := fun n => n != 1

/-! ## Helper lemmas about the catalog query builder -/

/-- Successful plan construction for a search determines every component
of the built query from the request parameters. -/
theorem buildPlan_search_inv {req : Request} {q : BuiltQuery}
    (h : buildPlan req = Except.ok (Plan.search q)) :
    normStr req.productId = none ∧
    q.tokens = keywordTokens req.keywords ∧
    q.category = normStr req.category ∧
    q.brand = normStr req.brand ∧
    q.powerSource = normStr req.powerSource ∧
    q.driveType = normStr req.driveType ∧
    numParam req.cuttingWidthCm errCuttingWidth = Except.ok q.cuttingWidth ∧
    rearRollerParam req.hasRearRoller = Except.ok q.rearRoller ∧
    numParam req.minPrice errMinPrice = Except.ok q.minPrice ∧
    numParam req.maxPrice errMaxPrice = Except.ok q.maxPrice ∧
    sortByParam req.sortBy = Except.ok q.sortKey ∧
    q.sortDesc = descOf req.order := by
  unfold buildPlan at h
  cases hpid : normStr req.productId with
  | some pid => rw [hpid] at h; exact absurd h (by simp)
  | none =>
    rw [hpid] at h
    simp only [bind, Except.bind] at h
    cases h1 : numParam req.cuttingWidthCm errCuttingWidth with
    | error m => rw [h1] at h; exact absurd h (by simp)
    | ok cw =>
      rw [h1] at h
      cases h2 : rearRollerParam req.hasRearRoller with
      | error m => rw [h2] at h; exact absurd h (by simp)
      | ok rr =>
        rw [h2] at h
        cases h3 : numParam req.minPrice errMinPrice with
        | error m => rw [h3] at h; exact absurd h (by simp)
        | ok mn =>
          rw [h3] at h
          cases h4 : numParam req.maxPrice errMaxPrice with
          | error m => rw [h4] at h; exact absurd h (by simp)
          | ok mx =>
            rw [h4] at h
            cases h5 : sortByParam req.sortBy with
            | error m => rw [h5] at h; exact absurd h (by simp)
            | ok sk =>
              rw [h5] at h
              simp only [Except.ok.injEq, Plan.search.injEq] at h
              subst h
              exact ⟨rfl, rfl, rfl, rfl, rfl, rfl, rfl, rfl, rfl, rfl, rfl, rfl⟩

/-- With `productId` absent, plan construction either rejects the
request or yields a search plan. -/
theorem buildPlan_none_pid {req : Request} (hpid : normStr req.productId = none) :
    (∃ m, buildPlan req = Except.error m) ∨ ∃ q, buildPlan req = Except.ok (Plan.search q) := by
  unfold buildPlan
  rw [hpid]
  simp only [bind, Except.bind]
  cases h1 : numParam req.cuttingWidthCm errCuttingWidth with
  | error m => exact Or.inl ⟨m, rfl⟩
  | ok cw =>
    cases h2 : rearRollerParam req.hasRearRoller with
    | error m => exact Or.inl ⟨m, rfl⟩
    | ok rr =>
      cases h3 : numParam req.minPrice errMinPrice with
      | error m => exact Or.inl ⟨m, rfl⟩
      | ok mn =>
        cases h4 : numParam req.maxPrice errMaxPrice with
        | error m => exact Or.inl ⟨m, rfl⟩
        | ok mx =>
          cases h5 : sortByParam req.sortBy with
          | error m => exact Or.inl ⟨m, rfl⟩
          | ok sk => exact Or.inr ⟨_, rfl⟩

/-- With `productId` present, the plan is the identifier lookup. -/
theorem buildPlan_some_pid {req : Request} {pid : Str}
    (hpid : normStr req.productId = some pid) :
    buildPlan req = Except.ok (Plan.lookup pid) := by
  unfold buildPlan
  rw [hpid]

/-- Sorting does not change membership. -/
theorem mem_sortRows {k : Option SortKey} {d : Bool} {rows : List Product} {p : Product} :
    p ∈ sortRows k d rows ↔ p ∈ rows := by
  cases k with
  | none => simp [sortRows]
  | some key => simp [sortRows, List.mem_insertionSort]

/-- A `200` response with `productId` absent comes from a search plan,
and its rows are the sorted filtered store. -/
theorem getProducts_ok_search {db : List Product} {req : Request} {rows : List Product}
    (hpid : normStr req.productId = none)
    (hres : getProducts db req = ProductsResponse.ok rows) :
    ∃ q, buildPlan req = Except.ok (Plan.search q) ∧
      rows = sortRows q.sortKey q.sortDesc (db.filter (rowMatches q)) := by
  rcases buildPlan_none_pid hpid with ⟨m, hm⟩ | ⟨q, hq⟩
  · rw [getProducts, hm] at hres; exact absurd hres (by simp)
  · refine ⟨q, hq, ?_⟩
    rw [getProducts, hq] at hres
    simp only [ProductsResponse.ok.injEq] at hres
    exact hres.symm

/-- Membership in a `200` response with `productId` absent means
membership in the store plus satisfaction of the built `WHERE` clause. -/
theorem getProducts_ok_mem {db : List Product} {req : Request} {rows : List Product} {p : Product}
    (hpid : normStr req.productId = none)
    (hres : getProducts db req = ProductsResponse.ok rows)
    (hp : p ∈ rows) :
    ∃ q, buildPlan req = Except.ok (Plan.search q) ∧ p ∈ db ∧ rowMatches q p = true := by
  obtain ⟨q, hq, hrows⟩ := getProducts_ok_search hpid hres
  subst hrows
  rw [mem_sortRows, List.mem_filter] at hp
  exact ⟨q, hq, hp.1, hp.2⟩

/-- With `productId` present the handler performs only the identifier
lookup: first matching row or 404. -/
theorem getProducts_lookup {db : List Product} {req : Request} {pid : Str}
    (hpid : normStr req.productId = some pid) :
    getProducts db req =
      match db.find? (fun p => p.id == pid) with
      | some p => ProductsResponse.ok [p]
      | none => ProductsResponse.notFound := by
  rw [getProducts, buildPlan_some_pid hpid]

/-! ## Claim theorems: catalog endpoint -/

/-- C1: for every catalog request without `productId` that gets a `200`
answer (i.e. all supplied filters are valid), every product in the
returned array simultaneously satisfies every supplied predicate:
case-insensitive equality for category/brand/powerSource/driveType,
exact numeric equality for cuttingWidthCm, inclusive price bounds,
the rear-roller boolean, and the keyword condition; the filters are
conjoined. -/
theorem c1_conjunction_correctness
    (db : List Product) (req : Request) (rows : List Product) (p : Product)
    (hpid : normStr req.productId = none)
    (hres : getProducts db req = ProductsResponse.ok rows)
    (hp : p ∈ rows) :
    (∀ c, normStr req.category = some c → lowerStr p.category = lowerStr c) ∧
    (∀ b, normStr req.brand = some b → lowerStr p.brand = lowerStr b) ∧
    (∀ s, normStr req.powerSource = some s → lowerStr p.powerSource = lowerStr s) ∧
    (∀ d, normStr req.driveType = some d → lowerStr p.driveType = lowerStr d) ∧
    (∀ s v, normStr req.cuttingWidthCm = some s → parseFloat s = some v →
      p.cuttingWidthCm = v) ∧
    (∀ s v, normStr req.minPrice = some s → parseFloat s = some v → v ≤ p.price) ∧
    (∀ s v, normStr req.maxPrice = some s → parseFloat s = some v → p.price ≤ v) ∧
    (req.hasRearRoller = some strTrue → lowerStr p.hasRearRoller = strTrue) ∧
    (req.hasRearRoller = some strFalse → lowerStr p.hasRearRoller = strFalse) ∧
    (∀ kw, normStr req.keywords = some kw → kwMatch1 (tokenize (lowerStr kw)) p = true) := by
  obtain ⟨q, hq, hpdb, hmatch⟩ := getProducts_ok_mem hpid hres hp
  obtain ⟨-, htok, hcat, hbr, hpw, hdv, hcw, hrr, hmn, hmx, -, -⟩ := buildPlan_search_inv hq
  rw [rowMatches, Bool.and_eq_true] at hmatch
  obtain ⟨hkw, hrest⟩ := hmatch
  rw [restMatch] at hrest
  simp only [Bool.and_eq_true] at hrest
  obtain ⟨⟨⟨⟨⟨⟨⟨hcatm, hbrm⟩, hpwm⟩, hdvm⟩, hcwm⟩, hrrm⟩, hmnm⟩, hmxm⟩ := hrest
  refine ⟨?_, ?_, ?_, ?_, ?_, ?_, ?_, ?_, ?_, ?_⟩
  · intro c hc; rw [hcat, hc] at hcatm; exact eq_of_beq hcatm
  · intro b hb; rw [hbr, hb] at hbrm; exact eq_of_beq hbrm
  · intro s hs; rw [hpw, hs] at hpwm; exact eq_of_beq hpwm
  · intro d hd; rw [hdv, hd] at hdvm; exact eq_of_beq hdvm
  · intro s v hs hv
    simp only [numParam, hs, hv, Except.ok.injEq] at hcw
    rw [← hcw] at hcwm
    exact of_decide_eq_true hcwm
  · intro s v hs hv
    simp only [numParam, hs, hv, Except.ok.injEq] at hmn
    rw [← hmn] at hmnm
    exact of_decide_eq_true hmnm
  · intro s v hs hv
    simp only [numParam, hs, hv, Except.ok.injEq] at hmx
    rw [← hmx] at hmxm
    exact of_decide_eq_true hmxm
  · intro h
    have he : rearRollerParam req.hasRearRoller = Except.ok (some true) := by rw [h]; rfl
    rw [he] at hrr
    injection hrr with hrr
    rw [← hrr] at hrrm
    exact eq_of_beq hrrm
  · intro h
    have he : rearRollerParam req.hasRearRoller = Except.ok (some false) := by rw [h]; rfl
    rw [he] at hrr
    injection hrr with hrr
    rw [← hrr] at hrrm
    exact eq_of_beq hrrm
  · intro kw hkw2
    rw [keywordTokens, hkw2] at htok
    rw [htok] at hkw
    exact hkw

/-- Witness for C1 at `category=a&minPrice=50` over a one-row store. -/
theorem c1_witness :
    normStr reqC1.productId = none ∧
    getProducts dbOne reqC1 = ProductsResponse.ok [prodA] ∧
    prodA ∈ [prodA] ∧
    lowerStr prodA.category = lowerStr [97] :=
  ⟨by decide, by decide, by decide,
    (c1_conjunction_correctness dbOne reqC1 [prodA] prodA (by decide) (by decide)
      (by decide)).1 [97] (by decide)⟩

/-- C3: with a non-empty `productId` the handler ignores all other
filters; a matching record yields a single-element 200 array whose
element has that identifier, and the 404 outcome happens exactly when no
record has the identifier. -/
theorem c3_identifier_lookup (db : List Product) (req : Request) (pid : Str)
    (hpid : normStr req.productId = some pid) :
    ((db.find? (fun x => x.id == pid)).isSome = true ↔ ∃ p ∈ db, p.id = pid) ∧
    (∀ p, db.find? (fun x => x.id == pid) = some p →
      getProducts db req = ProductsResponse.ok [p] ∧ p.id = pid) ∧
    (db.find? (fun x => x.id == pid) = none →
      getProducts db req = ProductsResponse.notFound) := by
  refine ⟨?_, ?_, ?_⟩
  · simp [List.find?_isSome]
  · intro p hp
    rw [getProducts_lookup hpid, hp]
    have hpe := List.find?_some hp
    exact ⟨rfl, eq_of_beq hpe⟩
  · intro h
    rw [getProducts_lookup hpid, h]

/-- Witness for C3 at `productId=1&category=bogus`: product 1 is still
returned although its category is not `bogus`. -/
theorem c3_witness :
    normStr reqC3.productId = some [49] ∧
    dbOne.find? (fun x => x.id == [49]) = some prodA ∧
    getProducts dbOne reqC3 = ProductsResponse.ok [prodA] ∧ prodA.id = [49] :=
  ⟨by decide, by decide,
    (c3_identifier_lookup dbOne reqC3 [49] (by decide)).2.1 prodA (by decide)⟩

/-- C5: a present but non-numeric `cuttingWidthCm`/`minPrice`/`maxPrice`,
a present `hasRearRoller` other than the literals `true`/`false`, or a
present `sortBy` other than `price`/`name` is rejected with a 400
response that is the same for every store — no catalog read happens. -/
theorem c5_validation_rejects_before_query (req : Request)
    (hpid : normStr req.productId = none)
    (hbad :
      (∃ s, normStr req.cuttingWidthCm = some s ∧ parseFloat s = none) ∨
      (∃ s, req.hasRearRoller = some s ∧ s.isEmpty = false ∧
        s ≠ strTrue ∧ s ≠ strFalse) ∨
      (∃ s, normStr req.minPrice = some s ∧ parseFloat s = none) ∨
      (∃ s, normStr req.maxPrice = some s ∧ parseFloat s = none) ∨
      (∃ s, normStr req.sortBy = some s ∧ lowerStr s ≠ strPrice ∧ lowerStr s ≠ strName)) :
    ∃ msg, ∀ db, getProducts db req = ProductsResponse.badRequest msg := by
  rcases buildPlan_none_pid hpid with ⟨m, hm⟩ | ⟨q, hq⟩
  · exact ⟨m, fun db => by rw [getProducts, hm]⟩
  · exfalso
    obtain ⟨-, -, -, -, -, -, hcw, hrr, hmn, hmx, hsk, -⟩ := buildPlan_search_inv hq
    rcases hbad with ⟨s, hs, hpf⟩ | ⟨s, hs, hne, ht, hf⟩ | ⟨s, hs, hpf⟩ | ⟨s, hs, hpf⟩ |
      ⟨s, hs, hp1, hp2⟩
    · simp only [numParam, hs, hpf] at hcw
      exact Except.noConfusion hcw
    · rw [hs] at hrr
      simp only [rearRollerParam] at hrr
      rw [if_neg ht, if_neg hf, hne] at hrr
      simp at hrr
    · simp only [numParam, hs, hpf] at hmn
      exact Except.noConfusion hmn
    · simp only [numParam, hs, hpf] at hmx
      exact Except.noConfusion hmx
    · simp only [sortByParam, hs] at hsk
      rw [if_neg hp1, if_neg hp2] at hsk
      exact Except.noConfusion hsk

/-- Witness for C5 at `cuttingWidthCm=abc`: the same 400 for two
different stores. -/
theorem c5_witness :
    normStr reqC5.cuttingWidthCm = some [97, 98, 99] ∧
    parseFloat [97, 98, 99] = none ∧
    ∃ msg, getProducts dbOne reqC5 = ProductsResponse.badRequest msg ∧
      getProducts dbTwo reqC5 = ProductsResponse.badRequest msg := by
  refine ⟨by decide, by decide, ?_⟩
  obtain ⟨msg, hmsg⟩ := c5_validation_rejects_before_query reqC5 (by decide)
    (Or.inl ⟨[97, 98, 99], by decide, by decide⟩)
  exact ⟨msg, hmsg dbOne, hmsg dbTwo⟩

/-- C6: without `productId`, `hasRearRoller=true` restricts every
returned row to a stored rear-roller value lower-casing to `true`,
`hasRearRoller=false` symmetrically, and any other non-empty value is a
store-independent 400. -/
theorem c6_rear_roller_filter (req : Request)
    (hpid : normStr req.productId = none) :
    (∀ db rows p, req.hasRearRoller = some strTrue →
      getProducts db req = ProductsResponse.ok rows → p ∈ rows →
      lowerStr p.hasRearRoller = strTrue) ∧
    (∀ db rows p, req.hasRearRoller = some strFalse →
      getProducts db req = ProductsResponse.ok rows → p ∈ rows →
      lowerStr p.hasRearRoller = strFalse) ∧
    (∀ s, req.hasRearRoller = some s → s.isEmpty = false → s ≠ strTrue → s ≠ strFalse →
      ∃ msg, ∀ db, getProducts db req = ProductsResponse.badRequest msg) := by
  refine ⟨?_, ?_, ?_⟩
  · intro db rows p h hres hp
    obtain ⟨q, hq, -, hmatch⟩ := getProducts_ok_mem hpid hres hp
    obtain ⟨-, -, -, -, -, -, -, hrr, -, -, -, -⟩ := buildPlan_search_inv hq
    have he : rearRollerParam req.hasRearRoller = Except.ok (some true) := by rw [h]; rfl
    rw [he] at hrr
    injection hrr with hrr
    rw [rowMatches, Bool.and_eq_true, restMatch] at hmatch
    simp only [Bool.and_eq_true] at hmatch
    obtain ⟨-, ⟨⟨⟨⟨⟨⟨⟨-, -⟩, -⟩, -⟩, -⟩, hrrm⟩, -⟩, -⟩⟩ := hmatch
    rw [← hrr] at hrrm
    exact eq_of_beq hrrm
  · intro db rows p h hres hp
    obtain ⟨q, hq, -, hmatch⟩ := getProducts_ok_mem hpid hres hp
    obtain ⟨-, -, -, -, -, -, -, hrr, -, -, -, -⟩ := buildPlan_search_inv hq
    have he : rearRollerParam req.hasRearRoller = Except.ok (some false) := by rw [h]; rfl
    rw [he] at hrr
    injection hrr with hrr
    rw [rowMatches, Bool.and_eq_true, restMatch] at hmatch
    simp only [Bool.and_eq_true] at hmatch
    obtain ⟨-, ⟨⟨⟨⟨⟨⟨⟨-, -⟩, -⟩, -⟩, -⟩, hrrm⟩, -⟩, -⟩⟩ := hmatch
    rw [← hrr] at hrrm
    exact eq_of_beq hrrm
  · intro s hsv hne ht hf
    rcases buildPlan_none_pid hpid with ⟨m, hm⟩ | ⟨q, hq⟩
    · exact ⟨m, fun db => by rw [getProducts, hm]⟩
    · exfalso
      obtain ⟨-, -, -, -, -, -, -, hrr, -, -, -, -⟩ := buildPlan_search_inv hq
      rw [hsv] at hrr
      simp only [rearRollerParam] at hrr
      rw [if_neg ht, if_neg hf, hne] at hrr
      simp at hrr

/-- Witness for C6: `hasRearRoller=true` keeps `prodA` (stored flag
`TRUE`), and `hasRearRoller=yes` is a store-independent 400. -/
theorem c6_witness :
    getProducts dbOne reqC6 = ProductsResponse.ok [prodA] ∧
    lowerStr prodA.hasRearRoller = strTrue ∧
    (∃ msg, ∀ db, getProducts db reqC6bad = ProductsResponse.badRequest msg) := by
  refine ⟨by decide, ?_, ?_⟩
  · exact (c6_rear_roller_filter reqC6 (by decide)).1 dbOne [prodA] prodA (by decide)
      (by decide) (by decide)
  · exact (c6_rear_roller_filter reqC6bad (by decide)).2.2 [121, 101, 115] (by decide)
      (by decide) (by decide) (by decide)

/-- C7, counterexample to the claim as stated: with `sortBy=price` and
`order=DESC` (which is not the literal string `desc`), the results come
back in descending price order, not ascending. -/
theorem c7_counterexample :
    reqC7x.order = some [68, 69, 83, 67] ∧
    ([68, 69, 83, 67] : Str) ≠ strDesc ∧
    getProducts dbTwo reqC7x = ProductsResponse.ok [prodDear, prodCheap] ∧
    ¬ List.Sorted priceLe [prodDear, prodCheap] := by
  refine ⟨rfl, by decide, by decide, ?_⟩
  intro h
  have := List.rel_of_sorted_cons h prodCheap (by simp)
  rw [priceLe] at this
  norm_num [prodDear, prodCheap] at this

/-- C7 as amended: with a valid `sortBy`, results are sorted in
descending key order iff the `order` parameter is present and
lower-cases to `desc`; every other `order` (including absent) gives
ascending key order. -/
theorem c7_order_direction (db : List Product) (req : Request) (rows : List Product) (s : Str)
    (hpid : normStr req.productId = none)
    (hsb : normStr req.sortBy = some s)
    (hres : getProducts db req = ProductsResponse.ok rows) :
    (descOf req.order = true ↔ ∃ o, normStr req.order = some o ∧ lowerStr o = strDesc) ∧
    (lowerStr s = strPrice →
      List.Sorted (sortRel SortKey.byPrice (descOf req.order)) rows) ∧
    (lowerStr s = strName →
      List.Sorted (sortRel SortKey.byName (descOf req.order)) rows) := by
  obtain ⟨q, hq, hrows⟩ := getProducts_ok_search hpid hres
  obtain ⟨-, -, -, -, -, -, -, -, -, -, hsk, hdesc⟩ := buildPlan_search_inv hq
  refine ⟨?_, ?_, ?_⟩
  · rw [descOf]
    cases ho : normStr req.order with
    | none => simp
    | some o => simp [beq_iff_eq]
  · intro hs
    simp only [sortByParam, hsb] at hsk
    rw [if_pos hs] at hsk
    simp only [Except.ok.injEq] at hsk
    rw [hrows, ← hsk, ← hdesc, sortRows]
    exact List.sorted_insertionSort _ _
  · intro hs
    have hne : lowerStr s ≠ strPrice := by
      intro hcontra; rw [hcontra] at hs; cases hs
    simp only [sortByParam, hsb] at hsk
    rw [if_neg hne, if_pos hs] at hsk
    simp only [Except.ok.injEq] at hsk
    rw [hrows, ← hsk, ← hdesc, sortRows]
    exact List.sorted_insertionSort _ _

/-- Witness for the amended C7 at `sortBy=price&order=desc`. -/
theorem c7_witness :
    getProducts dbTwo reqC7w = ProductsResponse.ok [prodDear, prodCheap] ∧
    List.Sorted (sortRel SortKey.byPrice (descOf reqC7w.order)) [prodDear, prodCheap] :=
  ⟨by decide,
    (c7_order_direction dbTwo reqC7w [prodDear, prodCheap] strPrice (by decide) (by decide)
      (by decide)).2.1 (by decide)⟩

/-- C10: with a non-empty `productId`, no validation of the other
parameters happens: the outcome is a single-row 200 or a 404, never a
400, for every store. -/
theorem c10_product_id_skips_validation (db : List Product) (req : Request) (pid : Str)
    (hpid : normStr req.productId = some pid) :
    ((∃ p, getProducts db req = ProductsResponse.ok [p] ∧ p.id = pid) ∨
      getProducts db req = ProductsResponse.notFound) ∧
    ∀ msg, getProducts db req ≠ ProductsResponse.badRequest msg := by
  have h := @getProducts_lookup db req pid hpid
  cases hf : db.find? (fun x => x.id == pid) with
  | some p =>
    rw [hf] at h
    have hpe := List.find?_some hf
    refine ⟨Or.inl ⟨p, h, eq_of_beq hpe⟩, ?_⟩
    intro msg hbad
    rw [h] at hbad
    cases hbad
  | none =>
    rw [hf] at h
    refine ⟨Or.inr h, ?_⟩
    intro msg hbad
    rw [h] at hbad
    cases hbad

/-- Witness for C10 at
`productId=1&cuttingWidthCm=abc&hasRearRoller=yes&sortBy=bogus`:
the invalid companions do not produce a 400. -/
theorem c10_witness :
    normStr reqC10.productId = some [49] ∧
    getProducts dbOne reqC10 = ProductsResponse.ok [prodA] ∧
    ∀ msg, getProducts dbOne reqC10 ≠ ProductsResponse.badRequest msg :=
  ⟨by decide, by decide,
    (c10_product_id_skips_validation dbOne reqC10 [49] (by decide)).2⟩

/-! ## Keyword search lemmas (latest revision) -/

/-- Every token produced by `tokenizeGo` (with a whitespace-free
accumulator) is whitespace-free. -/
theorem tokenizeGo_no_ws :
    ∀ (s acc : List Nat), (∀ c ∈ acc, isWsCode c = false) →
      ∀ t ∈ tokenizeGo s acc, ∀ c ∈ t, isWsCode c = false := by
  intro s
  induction s with
  | nil =>
    intro acc hacc t ht c hc
    rw [tokenizeGo] at ht
    by_cases he : acc.isEmpty = true
    · rw [if_pos he] at ht
      cases ht
    · rw [if_neg he] at ht
      simp only [List.mem_singleton] at ht
      subst ht
      exact hacc c (List.mem_reverse.mp hc)
  | cons d rest ih =>
    intro acc hacc t ht c hc
    rw [tokenizeGo] at ht
    by_cases hw : isWsCode d = true
    · rw [if_pos hw] at ht
      by_cases he : acc.isEmpty = true
      · rw [if_pos he] at ht
        exact ih [] (by simp) t ht c hc
      · rw [if_neg he] at ht
        rcases List.mem_cons.mp ht with rfl | ht2
        · exact hacc c (List.mem_reverse.mp hc)
        · exact ih [] (by simp) t ht2 c hc
    · rw [if_neg hw] at ht
      simp only [Bool.not_eq_true] at hw
      refine ih (d :: acc) ?_ t ht c hc
      intro x hx
      rcases List.mem_cons.mp hx with rfl | hx2
      · exact hw
      · exact hacc x hx2

/-- Tokens contain no space character. -/
theorem tokenize_no_space {s t : Str} (ht : t ∈ tokenize s) : ∀ c ∈ t, c ≠ 32 := by
  intro c hc heq
  have hws := tokenizeGo_no_ws s [] (by simp) t ht c hc
  rw [heq] at hws
  exact absurd hws (by decide)

/-- A space-free infix of `s` is an infix of `s` with spaces removed. -/
theorem infix_stripSpaces {t s : Str} (hns : ∀ c ∈ t, c ≠ 32) (h : t <:+: s) :
    t <:+: stripSpaces s := by
  obtain ⟨u, v, huv⟩ := h
  refine ⟨stripSpaces u, stripSpaces v, ?_⟩
  have hft : List.filter (fun c => c != 32) t = t :=
    List.filter_eq_self.mpr (fun a ha => bne_iff_ne.mpr (hns a ha))
  rw [← huv, stripSpaces, stripSpaces, stripSpaces, List.filter_append, List.filter_append, hft]

/-- ASCII lower-casing maps the space character and only it to space. -/
theorem lowerChar_eq_space_iff (c : Nat) : lowerChar c = 32 ↔ c = 32 := by
  rw [lowerChar]
  split <;> omega

/-- Lower-casing commutes with space stripping. -/
theorem lowerStr_stripSpaces (s : Str) :
    lowerStr (stripSpaces s) = stripSpaces (lowerStr s) := by
  rw [lowerStr, stripSpaces, stripSpaces, lowerStr, List.filter_map]
  congr 1
  congr 1
  funext c
  simp only [Function.comp_apply]
  rcases eq_or_ne c 32 with rfl | h
  · rfl
  · have h2 : lowerChar c ≠ 32 := fun hx => h ((lowerChar_eq_space_iff c).mp hx)
    have e1 : (c != 32) = true := bne_iff_ne.mpr h
    have e2 : (lowerChar c != 32) = true := bne_iff_ne.mpr h2
    rw [e1, e2]

/-- The spec's per-token condition coincides with the latest revision's
SQL condition (`REPLACE`-stripped name/description, plain ideal-for and
best-feature) for space-free tokens: matching a field plainly implies
matching its space-stripped form. -/
theorem specTokenMatch_iff_code (t : Str) (p : Product) (hns : ∀ c ∈ t, c ≠ 32) :
    specTokenMatch t p ↔
      (t <:+: lowerStr (stripSpaces p.name) ∨ t <:+: lowerStr (stripSpaces p.description) ∨
       t <:+: lowerStr p.idealFor ∨ t <:+: lowerStr p.bestFeature) := by
  constructor
  · rintro ((hn | hd2 | hi | hb) | (hsn | hsd))
    · exact Or.inl (by rw [lowerStr_stripSpaces]; exact infix_stripSpaces hns hn)
    · exact Or.inr (Or.inl (by rw [lowerStr_stripSpaces]; exact infix_stripSpaces hns hd2))
    · exact Or.inr (Or.inr (Or.inl hi))
    · exact Or.inr (Or.inr (Or.inr hb))
    · exact Or.inl hsn
    · exact Or.inr (Or.inl hsd)
  · rintro (hsn | hsd | hi | hb)
    · exact Or.inr (Or.inl hsn)
    · exact Or.inr (Or.inr hsd)
    · exact Or.inl (Or.inr (Or.inr (Or.inl hi)))
    · exact Or.inl (Or.inr (Or.inr (Or.inr hb)))

/-- The latest revision's keyword clause holds iff every token satisfies
the spec's per-token condition. -/
theorem kwMatch2_iff_spec (tokens : List Str) (p : Product)
    (hts : ∀ t ∈ tokens, ∀ c ∈ t, c ≠ 32) :
    kwMatch2 tokens p = true ↔ ∀ t ∈ tokens, specTokenMatch t p := by
  rw [kwMatch2, List.all_eq_true]
  constructor
  · intro h t htm
    have hcode := h t htm
    simp only [fieldLike, Bool.or_eq_true, decide_eq_true_eq] at hcode
    rw [specTokenMatch_iff_code t p (hts t htm)]
    tauto
  · intro h t htm
    have hspec := (specTokenMatch_iff_code t p (hts t htm)).mp (h t htm)
    simp only [fieldLike, Bool.or_eq_true, decide_eq_true_eq]
    tauto

/-! ## Claim theorem: keyword search (C4) -/

/-- C4: in the latest revision, for a catalog request with non-empty
`keywords` (and no `productId`) answered `200`, a product of the store
is returned iff it passes the non-keyword filters and every
whitespace-token of the keywords value appears as a case-insensitive
substring in at least one of the four text fields — each token
independently, with name/description additionally matchable after
stripping spaces from the field content. -/
theorem c4_keyword_search (db : List Product) (req : Request) (rows : List Product)
    (kw : Str) (q : BuiltQuery) (p : Product)
    (_hpid : normStr req.productId = none)
    (hkw : normStr req.keywords = some kw)
    (hq : buildPlan req = Except.ok (Plan.search q))
    (hres : getProductsV2 db req = ProductsResponse.ok rows) :
    p ∈ rows ↔ p ∈ db ∧ restMatch q p = true ∧
      ∀ t ∈ tokenize (lowerStr kw), specTokenMatch t p := by
  obtain ⟨-, htok, -, -, -, -, -, -, -, -, -, -⟩ := buildPlan_search_inv hq
  rw [getProductsV2, hq] at hres
  simp only [ProductsResponse.ok.injEq] at hres
  subst hres
  rw [mem_sortRows, List.mem_filter, rowMatchesV2, Bool.and_eq_true]
  rw [keywordTokens, hkw] at htok
  have hns : ∀ t ∈ tokenize (lowerStr kw), ∀ c ∈ t, c ≠ 32 :=
    fun t ht => tokenize_no_space ht
  constructor
  · rintro ⟨hdb, hkwm, hrest⟩
    refine ⟨hdb, hrest, ?_⟩
    rw [htok] at hkwm
    exact (kwMatch2_iff_spec _ p hns).mp hkwm
  · rintro ⟨hdb, hrest, hspec⟩
    refine ⟨hdb, ?_, hrest⟩
    rw [htok]
    exact (kwMatch2_iff_spec _ p hns).mpr hspec

/-- Witness for C4 at `keywords=lawnmower garden` over a store with one
product named `Lawn Mower` (compound-word match) and ideal-for
`garden`. -/
theorem c4_witness :
    normStr reqC4.keywords = some kwC4 ∧
    buildPlan reqC4 = Except.ok (Plan.search qC4) ∧
    getProductsV2 dbKW reqC4 = ProductsResponse.ok [prodKW] ∧
    (prodKW ∈ [prodKW] ↔ prodKW ∈ dbKW ∧ restMatch qC4 prodKW = true ∧
      ∀ t ∈ tokenize (lowerStr kwC4), specTokenMatch t prodKW) :=
  ⟨by decide, by rfl, by decide,
    c4_keyword_search dbKW reqC4 [prodKW] kwC4 qC4 prodKW (by decide) (by decide)
      (by rfl) (by decide)⟩

/-! ## Helper lemmas about the log batch writer -/

/-- Unfolding of `rowsOfFrom` at a cons cell. -/
theorem rowsOfFrom_cons (sid uid : JVal) (now : Nat → Str) (k0 : Nat) (e : JVal)
    (rest : List JVal) :
    rowsOfFrom sid uid now k0 (e :: rest) =
      match (mkRow e sid uid (now k0)).toOption with
      | some r => r :: rowsOfFrom sid uid now (k0 + 1) rest
      | none => rowsOfFrom sid uid now (k0 + 1) rest := by
  rw [rowsOfFrom, rowsOfFrom, List.enumFrom, List.filterMap_cons]
  cases (mkRow e sid uid (now k0)).toOption <;> rfl

/-- When every entry in a list extracts to a row, `rowsOfFrom` has one
row per entry. -/
theorem rowsOfFrom_length (sid uid : JVal) (now : Nat → Str) :
    ∀ (es : List JVal) (k0 : Nat),
      (∀ i : Fin es.length, (mkRow (es.get i) sid uid (now (k0 + i.val))).isOk = true) →
      (rowsOfFrom sid uid now k0 es).length = es.length := by
  intro es
  induction es with
  | nil => intro k0 _; rfl
  | cons e rest ih =>
    intro k0 hok
    have h0 : (mkRow e sid uid (now k0)).isOk = true := by
      have := hok ⟨0, by simp⟩
      simpa using this
    obtain ⟨row, hrow⟩ : ∃ r, mkRow e sid uid (now k0) = Except.ok r := by
      cases hr : mkRow e sid uid (now k0) with
      | error u => rw [hr] at h0; cases h0
      | ok r => exact ⟨r, rfl⟩
    rw [rowsOfFrom_cons, hrow]
    have hrest : ∀ i : Fin rest.length,
        (mkRow (rest.get i) sid uid (now (k0 + 1 + i.val))).isOk = true := by
      intro i
      have := hok ⟨i.val + 1, by simp only [List.length_cons]; omega⟩
      rw [show k0 + (i.val + 1) = k0 + 1 + i.val from by omega] at this
      simpa using this
    simp [Except.toOption, ih (k0 + 1) hrest]

/-- Every event emitted by the insertion loop is an insert. -/
theorem insertLoop_events_insert (sid uid : JVal) (now : Nat → Str) (qOk : Nat → Bool) :
    ∀ (es : List JVal) (q0 k0 : Nat) (ev : LogEv),
      ev ∈ (insertLoop sid uid now qOk es q0 k0).1 → ∃ r b, ev = LogEv.insert r b := by
  intro es
  induction es with
  | nil => intro q0 k0 ev hev; cases hev
  | cons e rest ih =>
    intro q0 k0 ev hev
    rw [insertLoop] at hev
    cases hr : mkRow e sid uid (now k0) with
    | error u => simp only [hr] at hev; cases hev
    | ok row =>
      simp only [hr] at hev
      by_cases hq : qOk q0 = true
      · rw [if_pos hq] at hev
        rcases List.mem_cons.mp hev with rfl | hev2
        · exact ⟨row, true, rfl⟩
        · exact ih (q0 + 1) (k0 + 1) ev hev2
      · rw [if_neg hq] at hev
        simp only [List.mem_singleton] at hev
        subst hev
        exact ⟨row, false, rfl⟩

/-- If every entry extracts and every insert query in range succeeds,
the loop emits one successful insert per entry, in order. -/
theorem insertLoop_all_ok (sid uid : JVal) (now : Nat → Str) (qOk : Nat → Bool) :
    ∀ (es : List JVal) (q0 k0 : Nat),
      (∀ i : Fin es.length, (mkRow (es.get i) sid uid (now (k0 + i.val))).isOk = true) →
      (∀ i, q0 ≤ i → i < q0 + es.length → qOk i = true) →
      insertLoop sid uid now qOk es q0 k0 =
        ((rowsOfFrom sid uid now k0 es).map (fun r => LogEv.insert r true),
         q0 + es.length, true) := by
  intro es
  induction es with
  | nil => intro q0 k0 _ _; simp [insertLoop, rowsOfFrom]
  | cons e rest ih =>
    intro q0 k0 hok hq
    have h0 : (mkRow e sid uid (now k0)).isOk = true := by
      have := hok ⟨0, by simp⟩
      simpa using this
    obtain ⟨row, hrow⟩ : ∃ r, mkRow e sid uid (now k0) = Except.ok r := by
      cases hr : mkRow e sid uid (now k0) with
      | error u => rw [hr] at h0; cases h0
      | ok r => exact ⟨r, rfl⟩
    have hq0 : qOk q0 = true := hq q0 le_rfl (by simp)
    have hrest : ∀ i : Fin rest.length,
        (mkRow (rest.get i) sid uid (now (k0 + 1 + i.val))).isOk = true := by
      intro i
      have := hok ⟨i.val + 1, by simp only [List.length_cons]; omega⟩
      rw [show k0 + (i.val + 1) = k0 + 1 + i.val from by omega] at this
      simpa using this
    have hqrest : ∀ i, q0 + 1 ≤ i → i < q0 + 1 + rest.length → qOk i = true := by
      intro i h1 h2
      exact hq i (by omega) (by simp only [List.length_cons]; omega)
    rw [insertLoop]
    simp only [hrow]
    rw [if_pos hq0, ih (q0 + 1) (k0 + 1) hrest hqrest]
    rw [rowsOfFrom_cons, hrow]
    simp only [Except.toOption, List.map_cons, List.length_cons]
    rw [show q0 + 1 + rest.length = q0 + (rest.length + 1) from by omega]

/-- If every entry extracts, the first `j` insert queries succeed and
the `j`-th fails, the loop stops with next query index `q0 + j + 1` and
reports failure. -/
theorem insertLoop_first_fail (sid uid : JVal) (now : Nat → Str) (qOk : Nat → Bool) :
    ∀ (j : Nat) (es : List JVal) (q0 k0 : Nat), j < es.length →
      (∀ i : Fin es.length, (mkRow (es.get i) sid uid (now (k0 + i.val))).isOk = true) →
      qOk (q0 + j) = false →
      (∀ i, q0 ≤ i → i < q0 + j → qOk i = true) →
      (insertLoop sid uid now qOk es q0 k0).2 = (q0 + j + 1, false) := by
  intro j
  induction j with
  | zero =>
    intro es q0 k0 hlt hok hfail _
    cases es with
    | nil => cases hlt
    | cons e rest =>
      have h0 : (mkRow e sid uid (now k0)).isOk = true := by
        have := hok ⟨0, by simp⟩
        simpa using this
      obtain ⟨row, hrow⟩ : ∃ r, mkRow e sid uid (now k0) = Except.ok r := by
        cases hr : mkRow e sid uid (now k0) with
        | error u => rw [hr] at h0; cases h0
        | ok r => exact ⟨r, rfl⟩
      simp only [Nat.add_zero] at hfail
      rw [insertLoop]
      simp only [hrow]
      rw [if_neg (by rw [hfail]; exact Bool.false_ne_true)]
  | succ j ihj =>
    intro es q0 k0 hlt hok hfail hpre
    cases es with
    | nil => cases hlt
    | cons e rest =>
      have h0 : (mkRow e sid uid (now k0)).isOk = true := by
        have := hok ⟨0, by simp⟩
        simpa using this
      obtain ⟨row, hrow⟩ : ∃ r, mkRow e sid uid (now k0) = Except.ok r := by
        cases hr : mkRow e sid uid (now k0) with
        | error u => rw [hr] at h0; cases h0
        | ok r => exact ⟨r, rfl⟩
      have hq0 : qOk q0 = true := hpre q0 le_rfl (by omega)
      have hrest : ∀ i : Fin rest.length,
          (mkRow (rest.get i) sid uid (now (k0 + 1 + i.val))).isOk = true := by
        intro i
        have := hok ⟨i.val + 1, by simp only [List.length_cons]; omega⟩
        rw [show k0 + (i.val + 1) = k0 + 1 + i.val from by omega] at this
        simpa using this
      rw [insertLoop]
      simp only [hrow]
      rw [if_pos hq0]
      have := ihj rest (q0 + 1) (k0 + 1) (by simpa using hlt)
        hrest (by rw [show q0 + 1 + j = q0 + (j + 1) from by omega]; exact hfail)
        (fun i h1 h2 => hpre i (by omega) (by omega))
      rw [show q0 + (j + 1) + 1 = q0 + 1 + j + 1 from by omega]
      exact this

/-- A trace with no commit events leaves nothing durable. -/
theorem committedRows_no_commit :
    ∀ (evs : List LogEv) (pending : List LogRow),
      (∀ ev ∈ evs, isCommitEv ev = false) → committedRows evs pending = [] := by
  intro evs
  induction evs with
  | nil => intro pending _; rfl
  | cons ev rest ih =>
    intro pending h
    have hrest : ∀ e ∈ rest, isCommitEv e = false :=
      fun e he => h e (List.mem_cons_of_mem _ he)
    cases ev with
    | connect b => exact ih pending hrest
    | beginTx b => exact ih pending hrest
    | insert r b =>
      cases b with
      | true => exact ih (pending ++ [r]) hrest
      | false => exact ih pending hrest
    | commit b =>
      have := h (LogEv.commit b) (List.mem_cons_self _ _)
      rw [isCommitEv] at this
      cases this
    | rollback b =>
      cases b with
      | true => exact ih [] hrest
      | false => exact ih pending hrest
    | release => exact ih pending hrest

/-- Replaying successful inserts followed by a successful commit makes
exactly the pending-plus-inserted rows durable, then continues. -/
theorem committedRows_inserts_commit :
    ∀ (rs : List LogRow) (pending : List LogRow) (tail : List LogEv),
      committedRows (rs.map (fun r => LogEv.insert r true) ++ LogEv.commit true :: tail) pending =
        (pending ++ rs) ++ committedRows tail [] := by
  intro rs
  induction rs with
  | nil => intro pending tail; simp [committedRows]
  | cons r rest ih =>
    intro pending tail
    simp only [List.map_cons, List.cons_append]
    rw [show committedRows
        (LogEv.insert r true :: (rest.map (fun r => LogEv.insert r true) ++
          LogEv.commit true :: tail)) pending =
        committedRows (rest.map (fun r => LogEv.insert r true) ++
          LogEv.commit true :: tail) (pending ++ [r]) from rfl]
    rw [ih (pending ++ [r]) tail]
    simp

/-- Insert events are not commits, rollbacks or releases. -/
theorem insertLoop_countP (sid uid : JVal) (now : Nat → Str) (qOk : Nat → Bool)
    (es : List JVal) (q0 k0 : Nat) (p : LogEv → Bool)
    (hp : ∀ r b, p (LogEv.insert r b) = false) :
    (insertLoop sid uid now qOk es q0 k0).1.countP p = 0 := by
  rw [List.countP_eq_zero]
  intro ev hev
  obtain ⟨r, b, rfl⟩ := insertLoop_events_insert sid uid now qOk es q0 k0 ev hev
  simp [hp r b]

/-! ## Claim theorems: log batch writer -/

/-- C2: a validated batch over a working connection is persisted
atomically.  If `BEGIN`, every insert and `COMMIT` succeed, the response
is 200, exactly one row per entry becomes durable (in order), with one
commit and no rollback; if the `j`-th insert fails (earlier ones having
succeeded) and the `ROLLBACK` succeeds, the response is 500, zero rows
of the batch are durable, and there is one rollback and no commit. -/
theorem c2_atomic_batch (logs sid uid : JVal) (now : Nat → Str) (qOk : Nat → Bool)
    (entries : List JVal)
    (harr : arrayElems logs = some entries)
    (hne : entries.isEmpty = false)
    (hextract : ∀ i : Fin entries.length,
      (mkRow (entries.get i) sid uid (now i.val)).isOk = true)
    (hbegin : qOk 0 = true) :
    ((∀ i, 1 ≤ i → i ≤ entries.length + 1 → qOk i = true) →
      (submitDebugLog logs sid uid true now qOk).1 = LogResult.success ∧
      visibleRows (submitDebugLog logs sid uid true now qOk).2 =
        rowsOf sid uid now entries ∧
      (rowsOf sid uid now entries).length = entries.length ∧
      (submitDebugLog logs sid uid true now qOk).2.countP isCommitEv = 1 ∧
      (submitDebugLog logs sid uid true now qOk).2.countP isRollbackEv = 0) ∧
    (∀ j : Fin entries.length,
      qOk (1 + j.val) = false →
      (∀ i, 1 ≤ i → i < 1 + j.val → qOk i = true) →
      qOk (2 + j.val) = true →
      (submitDebugLog logs sid uid true now qOk).1 = LogResult.serverError errStoreLogs ∧
      visibleRows (submitDebugLog logs sid uid true now qOk).2 = [] ∧
      (submitDebugLog logs sid uid true now qOk).2.countP isCommitEv = 0 ∧
      (submitDebugLog logs sid uid true now qOk).2.countP isRollbackEv = 1) := by
  have hextract0 : ∀ i : Fin entries.length,
      (mkRow (entries.get i) sid uid (now (0 + i.val))).isOk = true := by
    intro i
    rw [Nat.zero_add]
    exact hextract i
  constructor
  · intro hall
    have hq : ∀ i, 1 ≤ i → i < 1 + entries.length → qOk i = true :=
      fun i h1 h2 => hall i h1 (by omega)
    have hloop := insertLoop_all_ok sid uid now qOk entries 1 0 hextract0 hq
    have hcommit : qOk (1 + entries.length) = true :=
      hall (1 + entries.length) (by omega) (by omega)
    rw [submitDebugLog, harr]
    simp only [hne, Bool.false_eq_true, if_false, Bool.not_true, hbegin, if_true, hloop]
    rw [if_pos hcommit]
    refine ⟨rfl, ?_, rowsOfFrom_length sid uid now entries 0 hextract0, ?_, ?_⟩
    · rw [visibleRows]
      rw [show ([LogEv.connect true, LogEv.beginTx true] ++
          ((rowsOfFrom sid uid now 0 entries).map (fun r => LogEv.insert r true)) ++
          [LogEv.commit true, LogEv.release] : List LogEv) =
        LogEv.connect true :: LogEv.beginTx true ::
          ((rowsOfFrom sid uid now 0 entries).map (fun r => LogEv.insert r true) ++
            LogEv.commit true :: [LogEv.release]) from by simp]
      rw [show committedRows (LogEv.connect true :: LogEv.beginTx true ::
          ((rowsOfFrom sid uid now 0 entries).map (fun r => LogEv.insert r true) ++
            LogEv.commit true :: [LogEv.release])) [] =
        committedRows ((rowsOfFrom sid uid now 0 entries).map (fun r => LogEv.insert r true) ++
            LogEv.commit true :: [LogEv.release]) [] from rfl]
      rw [committedRows_inserts_commit]
      rw [rowsOf]
      simp [committedRows]
    · have hc0 : List.countP isCommitEv
          ((rowsOfFrom sid uid now 0 entries).map (fun r => LogEv.insert r true)) = 0 := by
        rw [List.countP_eq_zero]
        intro ev hev
        obtain ⟨r, -, rfl⟩ := List.mem_map.mp hev
        simp [isCommitEv]
      simp only [List.countP_append, List.countP_cons, List.countP_nil, hc0]
      decide
    · have hc0 : List.countP isRollbackEv
          ((rowsOfFrom sid uid now 0 entries).map (fun r => LogEv.insert r true)) = 0 := by
        rw [List.countP_eq_zero]
        intro ev hev
        obtain ⟨r, -, rfl⟩ := List.mem_map.mp hev
        simp [isRollbackEv]
      simp only [List.countP_append, List.countP_cons, List.countP_nil, hc0]
      decide
  · intro j hfail hpre hrb
    have hfail1 : qOk (1 + j.val) = false := hfail
    have hloop := insertLoop_first_fail sid uid now qOk j.val entries 1 0 j.isLt hextract0
      hfail1 (fun i h1 h2 => hpre i h1 h2)
    rw [submitDebugLog, harr]
    simp only [hne, Bool.false_eq_true, if_false, Bool.not_true, hbegin, if_true]
    rw [show (insertLoop sid uid now qOk entries 1 0).2.2 = false from by rw [hloop]]
    rw [show (insertLoop sid uid now qOk entries 1 0).2.1 = 1 + j.val + 1 from by rw [hloop]]
    rw [if_neg (by simp), show 1 + j.val + 1 = 2 + j.val from by omega, hrb, if_pos rfl]
    have honly : ∀ ev ∈ (insertLoop sid uid now qOk entries 1 0).1, isCommitEv ev = false := by
      intro ev hev
      obtain ⟨r, b, rfl⟩ := insertLoop_events_insert sid uid now qOk entries 1 0 ev hev
      rfl
    refine ⟨rfl, ?_, ?_, ?_⟩
    · rw [visibleRows]
      apply committedRows_no_commit
      intro ev hev
      simp only [List.mem_append, List.mem_cons, List.mem_singleton,
        List.not_mem_nil, or_false] at hev
      rcases hev with ((h1a | h1b) | h2) | h3 | h4
      · rw [h1a]; rfl
      · rw [h1b]; rfl
      · exact honly ev h2
      · rw [h3]; rfl
      · rw [h4]; rfl
    · simp only [List.countP_append, List.countP_cons, List.countP_nil]
      rw [insertLoop_countP sid uid now qOk entries 1 0 isCommitEv (fun r b => rfl)]
      rfl
    · simp only [List.countP_append, List.countP_cons, List.countP_nil]
      rw [insertLoop_countP sid uid now qOk entries 1 0 isRollbackEv (fun r b => rfl)]
      rfl

/-- Witness for C2 at the spec's example batch
`["hello", {message: "oops", level: "ERROR"}]` with every query
succeeding: 200, both rows durable in order, one commit, no rollback. -/
theorem c2_witness :
    arrayElems logsC2 = some [JVal.vstr [104, 101, 108, 108, 111],
      JVal.vobj [(keyMessage, JVal.vstr [111, 111, 112, 115]),
                 (keyLevel, JVal.vstr [69, 82, 82, 79, 82])]] ∧
    ((submitDebugLog logsC2 sidS uidS true tsConst allOk).1 = LogResult.success ∧
      visibleRows (submitDebugLog logsC2 sidS uidS true tsConst allOk).2 =
        rowsOf sidS uidS tsConst [JVal.vstr [104, 101, 108, 108, 111],
          JVal.vobj [(keyMessage, JVal.vstr [111, 111, 112, 115]),
                     (keyLevel, JVal.vstr [69, 82, 82, 79, 82])]] ∧
      (rowsOf sidS uidS tsConst [JVal.vstr [104, 101, 108, 108, 111],
          JVal.vobj [(keyMessage, JVal.vstr [111, 111, 112, 115]),
                     (keyLevel, JVal.vstr [69, 82, 82, 79, 82])]]).length = 2 ∧
      (submitDebugLog logsC2 sidS uidS true tsConst allOk).2.countP isCommitEv = 1 ∧
      (submitDebugLog logsC2 sidS uidS true tsConst allOk).2.countP isRollbackEv = 0) :=
  ⟨rfl,
    (c2_atomic_batch logsC2 sidS uidS tsConst allOk _ rfl rfl
      (fun i => by fin_cases i <;> rfl) rfl).1 (fun i _ _ => rfl)⟩

/-- C8 (code bug evaluation): the validated batch `[{level: "INFO"}]`
commits successfully, but the persisted `log_message` value is `none`
(SQL `NULL`), not text: the entry is not a string, its `message` field
is `undefined`, and `JSON.stringify(undefined)` is `undefined`. -/
theorem c8_message_null_persisted :
    (submitDebugLog logsC8 sidS uidS true tsConst allOk).1 = LogResult.success ∧
    visibleRows (submitDebugLog logsC8 sidS uidS true tsConst allOk).2 =
      [⟨sidS, uidS, [116], none, JVal.vstr [73, 78, 70, 79]⟩] := by
  constructor
  · rfl
  · rfl

/-- C9: whenever the request validates and a connection is acquired, the
handler releases it exactly once on every exit path, for every oracle of
query outcomes (commit success, mid-batch insert failure, extraction
failure, begin/commit/rollback failure). -/
theorem c9_release_exactly_once (logs sid uid : JVal) (now : Nat → Str) (qOk : Nat → Bool)
    (entries : List JVal)
    (harr : arrayElems logs = some entries)
    (hne : entries.isEmpty = false) :
    (submitDebugLog logs sid uid true now qOk).2.countP isReleaseEv = 1 := by
  rw [submitDebugLog, harr]
  simp only [hne, Bool.false_eq_true, if_false, Bool.not_true]
  have hins : (insertLoop sid uid now qOk entries 1 0).1.countP isReleaseEv = 0 :=
    insertLoop_countP sid uid now qOk entries 1 0 isReleaseEv (fun r b => rfl)
  by_cases h0 : qOk 0 = true
  · rw [if_pos h0]
    by_cases hdone : (insertLoop sid uid now qOk entries 1 0).2.2 = true
    · rw [hdone]
      simp only [if_true]
      by_cases hc : qOk (insertLoop sid uid now qOk entries 1 0).2.1 = true
      · rw [if_pos hc]
        simp [List.countP_append, List.countP_cons, hins, isReleaseEv]
      · rw [if_neg hc]
        by_cases hr : qOk ((insertLoop sid uid now qOk entries 1 0).2.1 + 1) = true
        · rw [if_pos hr]
          simp [List.countP_append, List.countP_cons, hins, isReleaseEv]
        · rw [if_neg hr]
          simp [List.countP_append, List.countP_cons, hins, isReleaseEv]
    · rw [Bool.not_eq_true] at hdone
      rw [hdone]
      simp only [Bool.false_eq_true, if_false]
      by_cases hr : qOk (insertLoop sid uid now qOk entries 1 0).2.1 = true
      · rw [if_pos hr]
        simp [List.countP_append, List.countP_cons, hins, isReleaseEv]
      · rw [if_neg hr]
        simp [List.countP_append, List.countP_cons, hins, isReleaseEv]
  · rw [if_neg h0]
    by_cases h1 : qOk 1 = true
    · rw [if_pos h1]
      rfl
    · rw [if_neg h1]
      rfl

/-- Witness for C9 with a failing first insert: the trace still contains
exactly one release. -/
theorem c9_witness :
    arrayElems logsC2 = some [JVal.vstr [104, 101, 108, 108, 111],
      JVal.vobj [(keyMessage, JVal.vstr [111, 111, 112, 115]),
                 (keyLevel, JVal.vstr [69, 82, 82, 79, 82])]] ∧
    (submitDebugLog logsC2 sidS uidS true tsConst failFirstInsert).2.countP isReleaseEv = 1 :=
  ⟨rfl, c9_release_exactly_once logsC2 sidS uidS tsConst failFirstInsert _ rfl rfl⟩
